import Mathlib

/-!
# VibeGuard archive-ingestion pipeline: a shallow embedding

Shallow embedding of `backend/scanner/ingest.py` (function `ingest_repo`),
the archive-ingestion pipeline of the VibeGuard repository: path
normalization, subpath restriction, directory denylist, extension
allowlist, five resource caps, text decoding and truncation accounting.

Conventions of the embedding:
* A Python `str` is a sequence of Unicode code points: modelled as
  `List Char`, with the `str` methods the source uses (`split`, `join`,
  `startswith`, `endswith`, `rstrip`, `lower`, `len`, slicing) defined
  below by structural recursion, matching CPython semantics.
* Raw bytes are `List Nat` (each element a byte value); decoded text is a
  `List Nat` of Unicode code points, so that the latin-1 fallback (byte
  `b` ↦ code point `b`) and the strict UTF-8 decoder are both explicit.
* The network fetch is abstracted by a `FetchOutcome` describing how the
  single HTTP GET ended; the dispatch on it mirrors lines 59-70 of the
  source.
* A zip entry is a `ZipInfo`: its archive name, declared uncompressed
  size (`ZipInfo.file_size`, used for cap accounting before reading, as
  in the source), the actual bytes `z.open(info).read(...)` would
  deliver, and a flag telling whether that read raises (per-entry
  corruption).
-/

set_option autoImplicit false

namespace VibeGuard

/-! ## Python string primitives

The source manipulates paths with `str` methods. A `str` is a sequence
of code points (`List Char`); each method used is given its CPython
meaning. -/

/-- The code points of a string literal (CPython `str` values are code
point sequences). -/
def pstr (s : String) : List Char := s.data

/-- CPython `s.split(sep)` for a one-character separator: every
occurrence of `sep` ends a field; `"".split(sep) == ['']`. -/
def pySplit (sep : Char) : List Char → List (List Char)
  | [] => [[]]
  | c :: rest =>
      match pySplit sep rest with
      | [] => [[c]]
      | h :: t => if c = sep then [] :: h :: t else (c :: h) :: t

/-- CPython `sep.join(parts)` for a one-character separator. -/
def pyJoin (sep : Char) : List (List Char) → List Char
  | [] => []
  | [x] => x
  | x :: y :: t => x ++ sep :: pyJoin sep (y :: t)

/-- CPython `s.startswith(prefix)`. -/
def pyStartsWith (s pre : List Char) : Bool := pre.isPrefixOf s

/-- CPython `s.endswith(suffix)`. -/
def pyEndsWith (s suf : List Char) : Bool := suf.isSuffixOf s

/-- CPython `s.rstrip(c)` for a one-character strip set. -/
def pyRstrip (c : Char) (s : List Char) : List Char :=
  (s.reverse.dropWhile (fun x => x = c)).reverse

/-- CPython `str.lower` on one character (ASCII range; the names and
extensions compared in the source are ASCII). -/
def pyLowerChar (c : Char) : Char :=
  if 'A' ≤ c ∧ c ≤ 'Z' then Char.ofNat (c.toNat + 32) else c

/-- CPython `s.lower()`. -/
def pyLower (s : List Char) : List Char := s.map pyLowerChar

/-! ## Caps and filter constants (`ingest.py` lines 26-38) -/

def MAX_TOTAL_UNCOMPRESSED : Nat := 25 * 1024 * 1024

def MAX_FILES_EXTRACT : Nat := 2000

def MAX_SINGLE_FILE_SIZE : Nat := 500 * 1024

def MAX_FILES_IN_MEMORY : Nat := 400

def MAX_CHARS_PER_FILE : Nat := 200000

def SKIP_DIRS : List (List Char) :=
  [pstr "node_modules", pstr ".git", pstr "dist", pstr "build", pstr ".next",
   pstr "venv", pstr "__pycache__"]

def ALLOWED_EXT : List (List Char) :=
  [pstr ".js", pstr ".ts", pstr ".py", pstr ".java", pstr ".go", pstr ".rb",
   pstr ".php", pstr ".cs", pstr ".c", pstr ".cpp", pstr ".json", pstr ".yml",
   pstr ".yaml", pstr ".toml", pstr ".env", pstr ".sh", pstr ".html", pstr ".css"]

/-! ## Data model

Modelled from the spec: the classes `InputRepository`, `SourceFile`,
`FilesPayload`, `FilesMetadata` and `Stats` are imported by `ingest.py`
from `models/contracts.py`, but the copy of `contracts.py` in the
repository does not define them; spec §3 gives their fields and the
fresh-instance defaults (`Stats()`, `FilesMetadata()`: counters zero,
`truncated` false, `reason` absent). -/

structure InputRepository where
  owner : String
  name : String
  ref : String
  subpath : Option (List Char)
deriving DecidableEq

structure SourceFile where
  path : List Char
  content : List Nat
deriving DecidableEq

structure FilesMetadata where
  truncated : Bool := false
  reason : Option String := none
deriving DecidableEq

structure Stats where
  files_considered : Nat := 0
  files_included : Nat := 0
  files_read : Nat := 0
  files_skipped : Nat := 0
  total_uncompressed_bytes : Nat := 0
  truncated : Bool := false
  reason : Option String := none
deriving DecidableEq

structure FilesPayload where
  repo : InputRepository
  files : List SourceFile
  metadata : FilesMetadata
deriving DecidableEq

/-! ## Fetch phase (`ingest.py` lines 59-70) -/

/-- How the single `client.get(url)` call ended: `readTimeout` is an
`httpx.ReadTimeout` escaping the call, `transportError` any other
exception, `response status` a response object with that HTTP status
code (after redirect following). -/
inductive FetchOutcome where
  | readTimeout : FetchOutcome
  | transportError : FetchOutcome
  | response : Nat → FetchOutcome
deriving DecidableEq

/-- The exception classes `ingest_repo` can raise (lines 14-24). -/
inductive IngestErr where
  | notFound : IngestErr
  | downloadTimeout : IngestErr
  | tooLarge : IngestErr
  | ingestError : IngestErr
deriving DecidableEq

/-- Lines 59-70: `ReadTimeout` becomes `DownloadTimeout`, any other
exception a generic `IngestError`; then status 404 becomes
`NotFoundError` and any status `>= 400` a generic `IngestError`. -/
def fetchDispatch : FetchOutcome → Except IngestErr Unit
  | .readTimeout => .error .downloadTimeout
  | .transportError => .error .ingestError
  | .response status =>
      if status = 404 then .error .notFound
      else if status ≥ 400 then .error .ingestError
      else .ok ()

/-! ## Per-entry filter steps (`ingest.py` lines 92-120, 142-146) -/

/-- A zip entry as the loop sees it: `filename`/`file_size` from the
`ZipInfo`, `data` the bytes a full read of the entry would produce, and
`readOk = false` when `z.open`/`fh.read` raises for this entry. -/
structure ZipInfo where
  filename : List Char
  file_size : Nat
  data : List Nat
  readOk : Bool := true
deriving DecidableEq

/-- Line 95: `name.endswith('/')`. -/
def isDirEntry (name : List Char) : Bool := pyEndsWith name (pstr "/")

/-- Lines 101-105: split on `/`; keep a single segment as is, otherwise
drop the synthetic top-level directory. -/
def stripTop (name : List Char) : List Char :=
  let parts := pySplit '/' name
  if parts.length ≤ 1 then parts.getLastD [] else pyJoin '/' parts.tail

/-- Lines 108-114: the optional subpath restriction. `none` is a skip
decision; `some rel` continues with the re-rooted relative path. A
`None` or empty subpath (falsy in Python) imposes no restriction. -/
def applySubpath (subpath : Option (List Char)) (rel : List Char) : Option (List Char) :=
  match subpath with
  | none => some rel
  | some sp =>
      if sp = [] then some rel
      else
        let spr := pyRstrip '/' sp
        if ¬ pyStartsWith rel (spr ++ pstr "/") ∧ rel ≠ spr then none
        else some (if pyStartsWith rel (spr ++ pstr "/") then rel.drop (spr.length + 1) else [])

/-- Lines 117-118: some path segment is a denylisted directory name. -/
def hitsSkipDir (rel : List Char) : Bool :=
  (pySplit '/' rel).any (fun p => SKIP_DIRS.contains p)

/-- The extension part of `os.path.splitext(p)` on a posix path: taken
from the last dot of the final path component, except that a leading run
of dots in that component never starts an extension (so `.env` has no
extension). -/
def splitextExt (p : List Char) : List Char :=
  let cs := (pySplit '/' p).getLastD []
  match cs.reverse.findIdx? (fun c => c = '.') with
  | none => []
  | some r =>
      let d := cs.length - 1 - r
      if (cs.take d).any (fun c => c ≠ '.') then cs.drop d else []

/-- Line 143: `os.path.splitext(rel_path.lower())[1]`. -/
def extOf (rel : List Char) : List Char := splitextExt (pyLower rel)

/-! ## Text decoding (`ingest.py` lines 170-177) -/

/-- `0x80 ≤ b ≤ 0xBF`: a UTF-8 continuation byte. -/
def isCont (b : Nat) : Bool := decide (0x80 ≤ b ∧ b ≤ 0xBF)

/-- Strict UTF-8 decoding, driven by a fuel counter so that the
recursion is structural (each decoded code point consumes at least one
byte, so fuel equal to the input length never runs out; the fuel-zero
row on a nonempty input is unreachable for the fuel `utf8Decode?`
supplies). -/
def utf8DecodeAux : Nat → List Nat → Option (List Nat)
  | _, [] => some []
  | 0, _ :: _ => none
  | fuel + 1, b :: rest =>
      if b ≤ 0x7F then (utf8DecodeAux fuel rest).map (fun t => b :: t)
      else if 0xC2 ≤ b ∧ b ≤ 0xDF then
        match rest with
        | b1 :: r =>
            if isCont b1 then
              (utf8DecodeAux fuel r).map (fun t => ((b - 0xC0) * 64 + (b1 - 0x80)) :: t)
            else none
        | [] => none
      else if 0xE0 ≤ b ∧ b ≤ 0xEF then
        match rest with
        | b1 :: b2 :: r =>
            if (if b = 0xE0 then 0xA0 else 0x80) ≤ b1 ∧
               b1 ≤ (if b = 0xED then 0x9F else 0xBF) ∧ isCont b2 then
              (utf8DecodeAux fuel r).map
                (fun t => ((b - 0xE0) * 4096 + (b1 - 0x80) * 64 + (b2 - 0x80)) :: t)
            else none
        | _ => none
      else if 0xF0 ≤ b ∧ b ≤ 0xF4 then
        match rest with
        | b1 :: b2 :: b3 :: r =>
            if (if b = 0xF0 then 0x90 else 0x80) ≤ b1 ∧
               b1 ≤ (if b = 0xF4 then 0x8F else 0xBF) ∧ isCont b2 ∧ isCont b3 then
              (utf8DecodeAux fuel r).map
                (fun t => ((b - 0xF0) * 262144 + (b1 - 0x80) * 4096 +
                           (b2 - 0x80) * 64 + (b3 - 0x80)) :: t)
            else none
        | _ => none
      else none

/-- Strict UTF-8 decoding of a byte list into code points, as Python's
`bytes.decode('utf-8')`: rejects invalid start bytes, truncated
sequences, overlong forms, surrogates and values above U+10FFFF;
`none` models the `UnicodeDecodeError`. -/
def utf8Decode? (l : List Nat) : Option (List Nat) := utf8DecodeAux l.length l

/-- `raw.decode('latin-1', errors='replace')`: latin-1 maps every byte
`b` to code point `b`, one character per byte, so the `replace` handler
never fires and the decode is total. -/
def latin1Decode (raw : List Nat) : List Nat := raw.map (fun b => b)

/-- Lines 170-175: strict UTF-8 first, total latin-1 fallback on
`UnicodeDecodeError`. (The non-`bytes` branch of line 176 is dead:
`fh.read` always returns `bytes`.) -/
def decodeText (raw : List Nat) : List Nat :=
  match utf8Decode? raw with
  | some t => t
  | none => latin1Decode raw

/-! ## The entry pass (`ingest.py` lines 82-202) -/

/-- The mutable state of the `for info in entries` loop: the local
counters of lines 86-90, the accumulating `files`, `metadata`, `stats`,
and `stopped` marking that a `break` has fired (a terminating cap). -/
structure LoopState where
  files : List SourceFile
  metadata : FilesMetadata
  stats : Stats
  total_uncompressed : Nat
  extracted_count : Nat
  included_count : Nat
  read_count : Nat
  skipped_count : Nat
  stopped : Bool
deriving DecidableEq

/-- State before the loop (lines 84-90): all counters zero,
`stats.files_considered` already set to the raw entry count. -/
def initState (numEntries : Nat) : LoopState :=
  { files := [],
    metadata := {},
    stats := { files_considered := numEntries },
    total_uncompressed := 0,
    extracted_count := 0,
    included_count := 0,
    read_count := 0,
    skipped_count := 0,
    stopped := false }

/-- One iteration of the loop body (lines 92-196). `stopped` short-cuts:
after a `break` the remaining entries are never examined, which the fold
models by leaving the state untouched. -/
def processEntry (subpath : Option (List Char)) (s : LoopState) (info : ZipInfo) : LoopState :=
  if s.stopped then s
  else if isDirEntry info.filename then
    { s with skipped_count := s.skipped_count + 1 }
  else
    match applySubpath subpath (stripTop info.filename) with
    | none => { s with skipped_count := s.skipped_count + 1 }
    | some rel_path =>
      if hitsSkipDir rel_path then { s with skipped_count := s.skipped_count + 1 }
      else
        -- lines 122-129: entry-count cap, checked after the increment
        let extracted := s.extracted_count + 1
        if extracted > MAX_FILES_EXTRACT then
          { s with extracted_count := extracted,
                   metadata := { truncated := true, reason := some "max_files_extracted_reached" },
                   stats := { s.stats with truncated := true,
                                           reason := some "max_files_extracted_reached" },
                   stopped := true }
        else
          -- lines 131-140: declared sizes accumulate before the extension filter
          let total := s.total_uncompressed + info.file_size
          if total > MAX_TOTAL_UNCOMPRESSED then
            { s with extracted_count := extracted,
                     total_uncompressed := total,
                     metadata := { truncated := true, reason := some "max_total_uncompressed_reached" },
                     stats := { s.stats with truncated := true,
                                             reason := some "max_total_uncompressed_reached" },
                     stopped := true }
          else
            let stats1 := { s.stats with total_uncompressed_bytes := total }
            -- lines 142-146: extension allowlist
            if ¬ ALLOWED_EXT.contains (extOf rel_path) then
              { s with extracted_count := extracted,
                       total_uncompressed := total,
                       stats := stats1,
                       skipped_count := s.skipped_count + 1 }
            -- lines 148-151: single-file size filter
            else if info.file_size > MAX_SINGLE_FILE_SIZE then
              { s with extracted_count := extracted,
                       total_uncompressed := total,
                       stats := stats1,
                       skipped_count := s.skipped_count + 1 }
            else
              -- lines 153-155
              let included := s.included_count + 1
              let stats2 := { stats1 with files_included := included }
              -- lines 157-164: in-memory cap
              if s.read_count ≥ MAX_FILES_IN_MEMORY then
                { s with extracted_count := extracted,
                         total_uncompressed := total,
                         included_count := included,
                         metadata := { truncated := true, reason := some "max_files_in_memory_reached" },
                         stats := { stats2 with truncated := true,
                                                reason := some "max_files_in_memory_reached" },
                         stopped := true }
              -- lines 191-196: a failing per-entry read is skipped locally
              else if info.readOk = false then
                { s with extracted_count := extracted,
                         total_uncompressed := total,
                         included_count := included,
                         stats := stats2,
                         skipped_count := s.skipped_count + 1 }
              else
                -- lines 166-189: read at most MAX_CHARS_PER_FILE + 1 bytes,
                -- decode, truncate past the per-file cap (non-terminating)
                let raw := info.data.take (MAX_CHARS_PER_FILE + 1)
                let text := decodeText raw
                if text.length > MAX_CHARS_PER_FILE then
                  { s with extracted_count := extracted,
                           total_uncompressed := total,
                           included_count := included,
                           files := s.files ++ [⟨rel_path, text.take MAX_CHARS_PER_FILE⟩],
                           read_count := s.read_count + 1,
                           metadata := { truncated := true, reason := some "max_chars_per_file_reached" },
                           stats := { stats2 with truncated := true,
                                                  reason := some "max_chars_per_file_reached",
                                                  files_read := s.read_count + 1 } }
                else
                  { s with extracted_count := extracted,
                           total_uncompressed := total,
                           included_count := included,
                           files := s.files ++ [⟨rel_path, text⟩],
                           read_count := s.read_count + 1,
                           stats := { stats2 with files_read := s.read_count + 1 } }

/-- The whole pass over the entry list plus the final stats assignments
of lines 200-202. Returns the `files` list, the payload metadata and the
stats. -/
def ingestEntries (subpath : Option (List Char)) (entries : List ZipInfo) :
    List SourceFile × FilesMetadata × Stats :=
  let s := entries.foldl (processEntry subpath) (initState entries.length)
  (s.files, s.metadata,
   { s.stats with files_skipped := s.skipped_count,
                  files_considered := entries.length,
                  files_included := s.included_count })

/-- `ingest_repo` end to end: the fetch dispatch of lines 59-70 followed
by the entry pass and the payload assembly of lines 212-213. `entries`
is the zip directory the downloaded archive holds. On any fetch failure
the error propagates and no payload is produced. -/
def ingest_repo (owner repo ref : String) (subpath : Option (List Char))
    (outcome : FetchOutcome) (entries : List ZipInfo) :
    Except IngestErr (FilesPayload × Stats) :=
  match fetchDispatch outcome with
  | .error e => .error e
  | .ok _ =>
      let r := ingestEntries subpath entries
      .ok ({ repo := { owner := owner, name := repo, ref := ref, subpath := subpath },
             files := r.1,
             metadata := r.2.1 },
           r.2.2)

/-! ## Helper lemmas: branch characterizations of `processEntry` -/

/-- After a terminating cap has fired, an iteration leaves the state
untouched (the `break` of the source: later entries are never examined). -/
theorem processEntry_of_stopped (sub : Option (List Char)) (s : LoopState) (info : ZipInfo)
    (h : s.stopped = true) : processEntry sub s info = s := by
  simp [processEntry, h]

/-- A whole tail of entries leaves a stopped state untouched. -/
theorem foldl_of_stopped (sub : Option (List Char)) (s : LoopState) (l : List ZipInfo)
    (h : s.stopped = true) : l.foldl (processEntry sub) s = s := by
  induction l with
  | nil => rfl
  | cons e t ih => simpa [processEntry_of_stopped sub s e h] using ih

/-- The fully admitted, successfully read, untruncated branch of the loop
body (lines 153-189 with `len(text) <= MAX_CHARS_PER_FILE`). -/
theorem processEntry_read_eq (sub : Option (List Char)) (s : LoopState) (info : ZipInfo)
    (rel : List Char)
    (hstop : s.stopped = false)
    (hdir : isDirEntry info.filename = false)
    (hsub : applySubpath sub (stripTop info.filename) = some rel)
    (hskip : hitsSkipDir rel = false)
    (hex : s.extracted_count + 1 ≤ MAX_FILES_EXTRACT)
    (htot : s.total_uncompressed + info.file_size ≤ MAX_TOTAL_UNCOMPRESSED)
    (hext : ALLOWED_EXT.contains (extOf rel) = true)
    (hsize : info.file_size ≤ MAX_SINGLE_FILE_SIZE)
    (hmem : s.read_count < MAX_FILES_IN_MEMORY)
    (hok : info.readOk = true)
    (hlen : (decodeText (info.data.take (MAX_CHARS_PER_FILE + 1))).length ≤ MAX_CHARS_PER_FILE) :
    processEntry sub s info =
      { s with extracted_count := s.extracted_count + 1,
               total_uncompressed := s.total_uncompressed + info.file_size,
               included_count := s.included_count + 1,
               files := s.files ++
                 [⟨rel, decodeText (info.data.take (MAX_CHARS_PER_FILE + 1))⟩],
               read_count := s.read_count + 1,
               stats := { s.stats with
                          total_uncompressed_bytes := s.total_uncompressed + info.file_size,
                          files_included := s.included_count + 1,
                          files_read := s.read_count + 1 } } := by
  rw [processEntry, hstop, hdir, hsub]
  simp only [Bool.false_eq_true, if_false]
  rw [hskip]
  simp only [Bool.false_eq_true, if_false]
  rw [if_neg (by omega), if_neg (by omega), if_neg (by simpa using hext),
    if_neg (by omega), if_neg (by omega), if_neg (by simp [hok]),
    if_neg (by omega)]

/-- The fully admitted, successfully read branch whose decoded text
overruns the per-file character cap (lines 179-189): content is cut to
the cap, the non-terminating reason is recorded, the pass goes on. -/
theorem processEntry_truncread_eq (sub : Option (List Char)) (s : LoopState) (info : ZipInfo)
    (rel : List Char)
    (hstop : s.stopped = false)
    (hdir : isDirEntry info.filename = false)
    (hsub : applySubpath sub (stripTop info.filename) = some rel)
    (hskip : hitsSkipDir rel = false)
    (hex : s.extracted_count + 1 ≤ MAX_FILES_EXTRACT)
    (htot : s.total_uncompressed + info.file_size ≤ MAX_TOTAL_UNCOMPRESSED)
    (hext : ALLOWED_EXT.contains (extOf rel) = true)
    (hsize : info.file_size ≤ MAX_SINGLE_FILE_SIZE)
    (hmem : s.read_count < MAX_FILES_IN_MEMORY)
    (hok : info.readOk = true)
    (hlen : (decodeText (info.data.take (MAX_CHARS_PER_FILE + 1))).length > MAX_CHARS_PER_FILE) :
    processEntry sub s info =
      { s with extracted_count := s.extracted_count + 1,
               total_uncompressed := s.total_uncompressed + info.file_size,
               included_count := s.included_count + 1,
               files := s.files ++
                 [⟨rel, (decodeText (info.data.take (MAX_CHARS_PER_FILE + 1))).take
                    MAX_CHARS_PER_FILE⟩],
               read_count := s.read_count + 1,
               metadata := { truncated := true, reason := some "max_chars_per_file_reached" },
               stats := { s.stats with
                          total_uncompressed_bytes := s.total_uncompressed + info.file_size,
                          files_included := s.included_count + 1,
                          files_read := s.read_count + 1,
                          truncated := true,
                          reason := some "max_chars_per_file_reached" } } := by
  rw [processEntry, hstop, hdir, hsub]
  simp only [Bool.false_eq_true, if_false]
  rw [hskip]
  simp only [Bool.false_eq_true, if_false]
  rw [if_neg (by omega), if_neg (by omega), if_neg (by simpa using hext),
    if_neg (by omega), if_neg (by omega), if_neg (by simp [hok]),
    if_pos (by omega)]

/-- The extension-allowlist skip (lines 142-146). Both caps of lines
122-140 have already run: the entry was counted and its declared size
accumulated — into the running total and into
`stats.total_uncompressed_bytes` — although its extension is rejected. -/
theorem processEntry_extskip_eq (sub : Option (List Char)) (s : LoopState) (info : ZipInfo)
    (rel : List Char)
    (hstop : s.stopped = false)
    (hdir : isDirEntry info.filename = false)
    (hsub : applySubpath sub (stripTop info.filename) = some rel)
    (hskip : hitsSkipDir rel = false)
    (hex : s.extracted_count + 1 ≤ MAX_FILES_EXTRACT)
    (htot : s.total_uncompressed + info.file_size ≤ MAX_TOTAL_UNCOMPRESSED)
    (hext : ALLOWED_EXT.contains (extOf rel) = false) :
    processEntry sub s info =
      { s with extracted_count := s.extracted_count + 1,
               total_uncompressed := s.total_uncompressed + info.file_size,
               stats := { s.stats with
                          total_uncompressed_bytes := s.total_uncompressed + info.file_size },
               skipped_count := s.skipped_count + 1 } := by
  rw [processEntry, hstop, hdir, hsub]
  simp only [Bool.false_eq_true, if_false]
  rw [hskip]
  simp only [Bool.false_eq_true, if_false]
  rw [if_neg (by omega), if_neg (by omega), if_pos (by simpa using hext)]

/-- The single-file-size skip (lines 148-151): non-terminating. -/
theorem processEntry_sizeskip_eq (sub : Option (List Char)) (s : LoopState) (info : ZipInfo)
    (rel : List Char)
    (hstop : s.stopped = false)
    (hdir : isDirEntry info.filename = false)
    (hsub : applySubpath sub (stripTop info.filename) = some rel)
    (hskip : hitsSkipDir rel = false)
    (hex : s.extracted_count + 1 ≤ MAX_FILES_EXTRACT)
    (htot : s.total_uncompressed + info.file_size ≤ MAX_TOTAL_UNCOMPRESSED)
    (hext : ALLOWED_EXT.contains (extOf rel) = true)
    (hsize : info.file_size > MAX_SINGLE_FILE_SIZE) :
    processEntry sub s info =
      { s with extracted_count := s.extracted_count + 1,
               total_uncompressed := s.total_uncompressed + info.file_size,
               stats := { s.stats with
                          total_uncompressed_bytes := s.total_uncompressed + info.file_size },
               skipped_count := s.skipped_count + 1 } := by
  rw [processEntry, hstop, hdir, hsub]
  simp only [Bool.false_eq_true, if_false]
  rw [hskip]
  simp only [Bool.false_eq_true, if_false]
  rw [if_neg (by omega), if_neg (by omega), if_neg (by simpa using hext),
    if_pos (by omega)]

/-- The per-entry read failure (lines 191-196): the entry was already
counted as included, the failure is absorbed into `skipped_count` and
the pass continues — nothing is appended to `files`. -/
theorem processEntry_readfail_eq (sub : Option (List Char)) (s : LoopState) (info : ZipInfo)
    (rel : List Char)
    (hstop : s.stopped = false)
    (hdir : isDirEntry info.filename = false)
    (hsub : applySubpath sub (stripTop info.filename) = some rel)
    (hskip : hitsSkipDir rel = false)
    (hex : s.extracted_count + 1 ≤ MAX_FILES_EXTRACT)
    (htot : s.total_uncompressed + info.file_size ≤ MAX_TOTAL_UNCOMPRESSED)
    (hext : ALLOWED_EXT.contains (extOf rel) = true)
    (hsize : info.file_size ≤ MAX_SINGLE_FILE_SIZE)
    (hmem : s.read_count < MAX_FILES_IN_MEMORY)
    (hok : info.readOk = false) :
    processEntry sub s info =
      { s with extracted_count := s.extracted_count + 1,
               total_uncompressed := s.total_uncompressed + info.file_size,
               included_count := s.included_count + 1,
               stats := { s.stats with
                          total_uncompressed_bytes := s.total_uncompressed + info.file_size,
                          files_included := s.included_count + 1 },
               skipped_count := s.skipped_count + 1 } := by
  rw [processEntry, hstop, hdir, hsub]
  simp only [Bool.false_eq_true, if_false]
  rw [hskip]
  simp only [Bool.false_eq_true, if_false]
  rw [if_neg (by omega), if_neg (by omega), if_neg (by simpa using hext),
    if_neg (by omega), if_neg (by omega), if_pos (by simp [hok])]

/-- The entry-count cap firing (lines 122-129): terminating. The running
byte total and `stats.total_uncompressed_bytes` are left as they were. -/
theorem processEntry_extstop_eq (sub : Option (List Char)) (s : LoopState) (info : ZipInfo)
    (rel : List Char)
    (hstop : s.stopped = false)
    (hdir : isDirEntry info.filename = false)
    (hsub : applySubpath sub (stripTop info.filename) = some rel)
    (hskip : hitsSkipDir rel = false)
    (hex : s.extracted_count + 1 > MAX_FILES_EXTRACT) :
    processEntry sub s info =
      { s with extracted_count := s.extracted_count + 1,
               metadata := { truncated := true, reason := some "max_files_extracted_reached" },
               stats := { s.stats with truncated := true,
                                       reason := some "max_files_extracted_reached" },
               stopped := true } := by
  rw [processEntry, hstop, hdir, hsub]
  simp only [Bool.false_eq_true, if_false]
  rw [hskip]
  simp only [Bool.false_eq_true, if_false]
  rw [if_pos (by omega)]

/-- The total-uncompressed cap firing (lines 131-138): terminating; the
over-cap running total is kept locally but never copied into the stats. -/
theorem processEntry_totstop_eq (sub : Option (List Char)) (s : LoopState) (info : ZipInfo)
    (rel : List Char)
    (hstop : s.stopped = false)
    (hdir : isDirEntry info.filename = false)
    (hsub : applySubpath sub (stripTop info.filename) = some rel)
    (hskip : hitsSkipDir rel = false)
    (hex : s.extracted_count + 1 ≤ MAX_FILES_EXTRACT)
    (htot : s.total_uncompressed + info.file_size > MAX_TOTAL_UNCOMPRESSED) :
    processEntry sub s info =
      { s with extracted_count := s.extracted_count + 1,
               total_uncompressed := s.total_uncompressed + info.file_size,
               metadata := { truncated := true, reason := some "max_total_uncompressed_reached" },
               stats := { s.stats with truncated := true,
                                       reason := some "max_total_uncompressed_reached" },
               stopped := true } := by
  rw [processEntry, hstop, hdir, hsub]
  simp only [Bool.false_eq_true, if_false]
  rw [hskip]
  simp only [Bool.false_eq_true, if_false]
  rw [if_neg (by omega), if_pos (by omega)]

/-- The in-memory cap firing (lines 157-164): terminating; the entry that
triggers it has already been counted as included. -/
theorem processEntry_memstop_eq (sub : Option (List Char)) (s : LoopState) (info : ZipInfo)
    (rel : List Char)
    (hstop : s.stopped = false)
    (hdir : isDirEntry info.filename = false)
    (hsub : applySubpath sub (stripTop info.filename) = some rel)
    (hskip : hitsSkipDir rel = false)
    (hex : s.extracted_count + 1 ≤ MAX_FILES_EXTRACT)
    (htot : s.total_uncompressed + info.file_size ≤ MAX_TOTAL_UNCOMPRESSED)
    (hext : ALLOWED_EXT.contains (extOf rel) = true)
    (hsize : info.file_size ≤ MAX_SINGLE_FILE_SIZE)
    (hmem : s.read_count ≥ MAX_FILES_IN_MEMORY) :
    processEntry sub s info =
      { s with extracted_count := s.extracted_count + 1,
               total_uncompressed := s.total_uncompressed + info.file_size,
               included_count := s.included_count + 1,
               metadata := { truncated := true, reason := some "max_files_in_memory_reached" },
               stats := { s.stats with
                          total_uncompressed_bytes := s.total_uncompressed + info.file_size,
                          files_included := s.included_count + 1,
                          truncated := true,
                          reason := some "max_files_in_memory_reached" },
               stopped := true } := by
  rw [processEntry, hstop, hdir, hsub]
  simp only [Bool.false_eq_true, if_false]
  rw [hskip]
  simp only [Bool.false_eq_true, if_false]
  rw [if_neg (by omega), if_neg (by omega), if_neg (by simpa using hext),
    if_neg (by omega), if_pos (by omega)]

/-! ## The loop invariant -/

/-- Facts every reachable loop state satisfies: the counter mirrors in
the stats, `files` tracking `read_count`, the in-memory and
total-uncompressed bounds, the metadata/stats synchronization, and the
shape of a stopped state. -/
def StateInv (s : LoopState) : Prop :=
  s.stats.files_read = s.read_count ∧
  s.stats.files_included = s.included_count ∧
  s.files.length = s.read_count ∧
  s.read_count ≤ MAX_FILES_IN_MEMORY ∧
  s.read_count ≤ s.included_count ∧
  s.stats.total_uncompressed_bytes ≤ MAX_TOTAL_UNCOMPRESSED ∧
  s.stats.truncated = s.metadata.truncated ∧
  s.stats.reason = s.metadata.reason ∧
  (s.stopped = true →
    s.metadata.truncated = true ∧
    (s.metadata.reason = some "max_files_extracted_reached" ∨
     s.metadata.reason = some "max_total_uncompressed_reached" ∨
     s.metadata.reason = some "max_files_in_memory_reached")) ∧
  (s.metadata.reason ≠ none → s.metadata.truncated = true)

theorem initState_inv (n : Nat) : StateInv (initState n) := by
  refine ⟨rfl, rfl, rfl, ?_, ?_, ?_, rfl, rfl, ?_, ?_⟩ <;>
    simp [initState, MAX_FILES_IN_MEMORY, MAX_TOTAL_UNCOMPRESSED]

theorem processEntry_dirskip_eq (sub : Option (List Char)) (s : LoopState) (info : ZipInfo)
    (hstop : s.stopped = false)
    (hdir : isDirEntry info.filename = true) :
    processEntry sub s info = { s with skipped_count := s.skipped_count + 1 } := by
  rw [processEntry, hstop, hdir]
  simp

theorem processEntry_subskip_eq (sub : Option (List Char)) (s : LoopState) (info : ZipInfo)
    (hstop : s.stopped = false)
    (hdir : isDirEntry info.filename = false)
    (hsub : applySubpath sub (stripTop info.filename) = none) :
    processEntry sub s info = { s with skipped_count := s.skipped_count + 1 } := by
  rw [processEntry, hstop, hdir, hsub]
  simp

theorem processEntry_skipdirskip_eq (sub : Option (List Char)) (s : LoopState) (info : ZipInfo)
    (rel : List Char)
    (hstop : s.stopped = false)
    (hdir : isDirEntry info.filename = false)
    (hsub : applySubpath sub (stripTop info.filename) = some rel)
    (hskip : hitsSkipDir rel = true) :
    processEntry sub s info = { s with skipped_count := s.skipped_count + 1 } := by
  rw [processEntry, hstop, hdir, hsub]
  simp only [Bool.false_eq_true, if_false]
  rw [hskip]
  simp

theorem processEntry_inv (sub : Option (List Char)) (s : LoopState) (info : ZipInfo)
    (h : StateInv s) : StateInv (processEntry sub s info) := by
  obtain ⟨h1, h2, h3, h4, h5, h6, h7, h8, h9, h10⟩ := h
  cases hstop : s.stopped with
  | true =>
      rw [processEntry_of_stopped sub s info hstop]
      exact ⟨h1, h2, h3, h4, h5, h6, h7, h8, h9, h10⟩
  | false =>
  cases hdir : isDirEntry info.filename with
  | true =>
      rw [processEntry_dirskip_eq sub s info hstop hdir]
      exact ⟨h1, h2, h3, h4, h5, h6, h7, h8, fun hc => by simp [hstop] at hc, h10⟩
  | false =>
  cases hsub : applySubpath sub (stripTop info.filename) with
  | none =>
      rw [processEntry_subskip_eq sub s info hstop hdir hsub]
      exact ⟨h1, h2, h3, h4, h5, h6, h7, h8, fun hc => by simp [hstop] at hc, h10⟩
  | some rel =>
  cases hskip : hitsSkipDir rel with
  | true =>
      rw [processEntry_skipdirskip_eq sub s info rel hstop hdir hsub hskip]
      exact ⟨h1, h2, h3, h4, h5, h6, h7, h8, fun hc => by simp [hstop] at hc, h10⟩
  | false =>
  by_cases hex : s.extracted_count + 1 > MAX_FILES_EXTRACT
  · rw [processEntry_extstop_eq sub s info rel hstop hdir hsub hskip hex]
    exact ⟨h1, h2, h3, h4, h5, h6, by simp, by simp, by simp, fun _ => rfl⟩
  · by_cases htot : s.total_uncompressed + info.file_size > MAX_TOTAL_UNCOMPRESSED
    · rw [processEntry_totstop_eq sub s info rel hstop hdir hsub hskip (by omega) htot]
      exact ⟨h1, h2, h3, h4, h5, h6, by simp, by simp, by simp, fun _ => rfl⟩
    · cases hext : ALLOWED_EXT.contains (extOf rel) with
      | false =>
          rw [processEntry_extskip_eq sub s info rel hstop hdir hsub hskip (by omega)
            (by omega) hext]
          exact ⟨h1, h2, h3, h4, h5, by simp; omega, h7, h8,
            fun hc => by simp [hstop] at hc, h10⟩
      | true =>
      by_cases hsize : info.file_size > MAX_SINGLE_FILE_SIZE
      · rw [processEntry_sizeskip_eq sub s info rel hstop hdir hsub hskip (by omega)
          (by omega) hext hsize]
        exact ⟨h1, h2, h3, h4, h5, by simp; omega, h7, h8,
          fun hc => by simp [hstop] at hc, h10⟩
      · by_cases hmem : s.read_count ≥ MAX_FILES_IN_MEMORY
        · rw [processEntry_memstop_eq sub s info rel hstop hdir hsub hskip (by omega)
            (by omega) hext (by omega) hmem]
          exact ⟨h1, by simp, h3, h4, by simp; omega, by simp; omega, by simp, by simp,
            by simp, fun _ => rfl⟩
        · cases hok : info.readOk with
          | false =>
              rw [processEntry_readfail_eq sub s info rel hstop hdir hsub hskip (by omega)
                (by omega) hext (by omega) (by omega) hok]
              exact ⟨h1, by simp, h3, h4, by simp; omega, by simp; omega, h7, h8,
                fun hc => by simp [hstop] at hc, h10⟩
          | true =>
              by_cases hlen :
                  (decodeText (info.data.take (MAX_CHARS_PER_FILE + 1))).length >
                    MAX_CHARS_PER_FILE
              · rw [processEntry_truncread_eq sub s info rel hstop hdir hsub hskip (by omega)
                  (by omega) hext (by omega) (by omega) hok hlen]
                exact ⟨by simp, by simp, by simp [h3], by simp; omega, by simp; omega,
                  by simp; omega, by simp, by simp, by simp [hstop], fun _ => rfl⟩
              · rw [processEntry_read_eq sub s info rel hstop hdir hsub hskip (by omega)
                  (by omega) hext (by omega) (by omega) hok (by omega)]
                exact ⟨by simp, by simp, by simp [h3], by simp; omega, by simp; omega,
                  by simp; omega, by simp [h7], by simp [h8],
                  fun hc => by simp [hstop] at hc, h10⟩

theorem foldl_inv (sub : Option (List Char)) (entries : List ZipInfo) (s : LoopState)
    (h : StateInv s) : StateInv (entries.foldl (processEntry sub) s) := by
  induction entries generalizing s with
  | nil => exact h
  | cons e t ih => exact ih _ (processEntry_inv sub s e h)

/-! ## A concrete run: 2001 zero-byte allowlisted entries (spec §8,
Scenario B) -/

/-- One zero-byte archive entry with an allowlisted extension. -/
def c2Entry : ZipInfo := { filename := pstr "f.py", file_size := 0, data := [], readOk := true }

/-- The loop state after `k ≤ 400` copies of `c2Entry` (each one fully
admitted and read), out of 2001 entries considered. -/
def c2State (k : Nat) : LoopState :=
  { files := List.replicate k ⟨pstr "f.py", []⟩,
    metadata := {},
    stats := { files_considered := 2001, files_included := k, files_read := k },
    total_uncompressed := 0,
    extracted_count := k,
    included_count := k,
    read_count := k,
    skipped_count := 0,
    stopped := false }

theorem c2_decode : decodeText (c2Entry.data.take (MAX_CHARS_PER_FILE + 1)) = [] := by
  decide

theorem c2_step (k : Nat) (hk : k < 400) :
    processEntry none (c2State k) c2Entry = c2State (k + 1) := by
  rw [processEntry_read_eq none (c2State k) c2Entry (pstr "f.py") rfl (by decide) (by decide)
    (by decide)
    (by show k + 1 ≤ MAX_FILES_EXTRACT; show k + 1 ≤ 2000; omega)
    (by show 0 + 0 ≤ MAX_TOTAL_UNCOMPRESSED; omega)
    (by decide) (by decide)
    (by show k < MAX_FILES_IN_MEMORY; show k < 400; omega)
    rfl (by rw [c2_decode]; decide)]
  rw [c2_decode]
  simp only [c2State, c2Entry, List.replicate_succ']

theorem c2_fold (j k : Nat) (hjk : k + j ≤ 400) :
    List.foldl (processEntry none) (c2State k) (List.replicate j c2Entry) =
      c2State (k + j) := by
  induction j generalizing k with
  | zero => simp
  | succ n ih =>
      rw [List.replicate_succ, List.foldl_cons, c2_step k (by omega)]
      rw [ih (k + 1) (by omega)]
      congr 1
      omega

/-- The state in which the in-memory cap has just fired: the 401st
admitted entry was counted as included but not read. -/
def c2StopState : LoopState :=
  { files := List.replicate 400 ⟨pstr "f.py", []⟩,
    metadata := { truncated := true, reason := some "max_files_in_memory_reached" },
    stats := { files_considered := 2001, files_included := 401, files_read := 400,
               truncated := true, reason := some "max_files_in_memory_reached" },
    total_uncompressed := 0,
    extracted_count := 401,
    included_count := 401,
    read_count := 400,
    skipped_count := 0,
    stopped := true }

theorem c2_stop : processEntry none (c2State 400) c2Entry = c2StopState := by
  rw [processEntry_memstop_eq none (c2State 400) c2Entry (pstr "f.py") rfl (by decide) (by decide)
    (by decide)
    (by show 400 + 1 ≤ MAX_FILES_EXTRACT; decide)
    (by show 0 + 0 ≤ MAX_TOTAL_UNCOMPRESSED; decide)
    (by decide) (by decide)
    (by show 400 ≥ MAX_FILES_IN_MEMORY; decide)]
  rfl

/-- The whole Scenario-B run, computed in closed form: it is the
in-memory cap, not the entry-count cap, that stops the pass, after the
401st admitted entry. -/
theorem c2_run :
    ingestEntries none (List.replicate 2001 c2Entry) =
      (List.replicate 400 ⟨pstr "f.py", ([] : List Nat)⟩,
       { truncated := true, reason := some "max_files_in_memory_reached" },
       { files_considered := 2001, files_included := 401, files_read := 400,
         files_skipped := 0, total_uncompressed_bytes := 0,
         truncated := true, reason := some "max_files_in_memory_reached" }) := by
  have hsplit : List.replicate 2001 c2Entry =
      List.replicate 400 c2Entry ++ (c2Entry :: List.replicate 1600 c2Entry) := by
    rw [← List.replicate_succ, ← List.replicate_add]
  have hinit : initState 2001 = c2State 0 := rfl
  simp only [ingestEntries, List.length_replicate]
  rw [hinit]
  conv_lhs => rw [hsplit]
  rw [List.foldl_append, c2_fold 400 0 (by omega), List.foldl_cons]
  simp only [Nat.zero_add]
  rw [c2_stop, foldl_of_stopped none c2StopState _ rfl]
  rfl

/-! ## Claims -/

/-- C1 (counterexample): the claim says an entry rejected by the
extension allowlist is never counted toward the entry-count cap and its
declared size is never accumulated toward the total-uncompressed cap. In
the code both caps run *before* the extension filter: a single
`.txt` entry (extension not allowlisted) of 26214401 declared bytes
fires the total-uncompressed cap, with zero entries admitted by the
allowlist. -/
theorem c1_counterexample :
    ALLOWED_EXT.contains (extOf (stripTop (pstr "r/a.txt"))) = false ∧
    ingestEntries none
        [{ filename := pstr "r/a.txt", file_size := 26214401, data := [], readOk := true }] =
      ([], { truncated := true, reason := some "max_total_uncompressed_reached" },
       { files_considered := 1, files_included := 0, files_read := 0, files_skipped := 0,
         total_uncompressed_bytes := 0, truncated := true,
         reason := some "max_total_uncompressed_reached" }) := by
  decide

/-- C1 (amended): the entry-count and total-uncompressed caps are
evaluated after the first three filter steps (top-level strip, subpath
restriction, denylist) but *before* the extension allowlist: for every
entry surviving those three steps, the entry counter is incremented and
— when neither of the two caps fires — its declared size is accumulated
into the running total and into `stats.total_uncompressed_bytes`, even
when the extension allowlist then rejects the entry. -/
theorem c1_amended (sub : Option (List Char)) (s : LoopState) (info : ZipInfo)
    (rel : List Char)
    (hstop : s.stopped = false)
    (hdir : isDirEntry info.filename = false)
    (hsub : applySubpath sub (stripTop info.filename) = some rel)
    (hskip : hitsSkipDir rel = false) :
    (s.extracted_count + 1 > MAX_FILES_EXTRACT →
      processEntry sub s info =
        { s with extracted_count := s.extracted_count + 1,
                 metadata := { truncated := true, reason := some "max_files_extracted_reached" },
                 stats := { s.stats with truncated := true,
                                         reason := some "max_files_extracted_reached" },
                 stopped := true }) ∧
    (s.extracted_count + 1 ≤ MAX_FILES_EXTRACT →
      s.total_uncompressed + info.file_size > MAX_TOTAL_UNCOMPRESSED →
      processEntry sub s info =
        { s with extracted_count := s.extracted_count + 1,
                 total_uncompressed := s.total_uncompressed + info.file_size,
                 metadata := { truncated := true, reason := some "max_total_uncompressed_reached" },
                 stats := { s.stats with truncated := true,
                                         reason := some "max_total_uncompressed_reached" },
                 stopped := true }) ∧
    (s.extracted_count + 1 ≤ MAX_FILES_EXTRACT →
      s.total_uncompressed + info.file_size ≤ MAX_TOTAL_UNCOMPRESSED →
      ALLOWED_EXT.contains (extOf rel) = false →
      processEntry sub s info =
        { s with extracted_count := s.extracted_count + 1,
                 total_uncompressed := s.total_uncompressed + info.file_size,
                 stats := { s.stats with
                            total_uncompressed_bytes := s.total_uncompressed + info.file_size },
                 skipped_count := s.skipped_count + 1 }) :=
  ⟨fun hex => processEntry_extstop_eq sub s info rel hstop hdir hsub hskip hex,
   fun hex htot => processEntry_totstop_eq sub s info rel hstop hdir hsub hskip hex htot,
   fun hex htot hext => processEntry_extskip_eq sub s info rel hstop hdir hsub hskip hex htot hext⟩

/-- C1 witness: the amended statement applied to a concrete
extension-rejected entry that fires the total-uncompressed cap. -/
theorem c1_amended_witness :
    processEntry none (initState 1)
        { filename := pstr "r/a.txt", file_size := 26214401, data := [], readOk := true } =
      { initState 1 with
        extracted_count := 1,
        total_uncompressed := 26214401,
        metadata := { truncated := true, reason := some "max_total_uncompressed_reached" },
        stats := { (initState 1).stats with truncated := true,
                                            reason := some "max_total_uncompressed_reached" },
        stopped := true } := by
  rw [(c1_amended none (initState 1)
    { filename := pstr "r/a.txt", file_size := 26214401, data := [], readOk := true }
    (pstr "a.txt") rfl (by decide) (by decide) (by decide)).2.1 (by decide) (by decide)]
  decide

/-- C2 (counterexample): for 2001 zero-byte entries with allowlisted
extensions, the pass does not stop with `max_files_extracted_reached`:
the in-memory cap (400) fires first, at the 401st admitted entry. -/
theorem c2_counterexample :
    (ingestEntries none (List.replicate 2001 c2Entry)).2.2.reason ≠
        some "max_files_extracted_reached" ∧
    (ingestEntries none (List.replicate 2001 c2Entry)).2.1.reason =
        some "max_files_in_memory_reached" := by
  rw [c2_run]
  exact ⟨by decide, rfl⟩

/-- C2 (amended): for an archive of exactly 2001 zero-byte allowlisted
entries (no subpath), the pass stops at the 401st admitted entry when
the in-memory cap fires: `metadata.reason` is
`max_files_in_memory_reached`, `files_included = 401 ≤ 2000`, and 400
files are returned. -/
theorem c2_amended :
    (ingestEntries none (List.replicate 2001 c2Entry)).2.1.reason =
        some "max_files_in_memory_reached" ∧
    (ingestEntries none (List.replicate 2001 c2Entry)).2.2.files_included = 401 ∧
    (ingestEntries none (List.replicate 2001 c2Entry)).2.2.files_included ≤ 2000 ∧
    (ingestEntries none (List.replicate 2001 c2Entry)).1.length = 400 := by
  rw [c2_run]
  exact ⟨rfl, rfl, by decide, by rw [List.length_replicate]⟩

/-- C3: the pipeline performs no `..` rejection and no deduplication: a
readable allowlisted entry named `repo-main/src/../../etc/passwd.py`
is forwarded with the traversal segments intact, and two entries that
collide after the top-level strip produce two identical paths. -/
theorem c3_evidence :
    ((ingestEntries none
          [{ filename := pstr "repo-main/src/../../etc/passwd.py", file_size := 2,
             data := [104, 105], readOk := true }]).1.map (fun f => f.path) =
        [pstr "src/../../etc/passwd.py"] ∧
      (pySplit '/' (pstr "src/../../etc/passwd.py")).contains (pstr "..") = true) ∧
    ((ingestEntries none
          [{ filename := pstr "a/x.py", file_size := 1, data := [104], readOk := true },
           { filename := pstr "b/x.py", file_size := 1, data := [104], readOk := true }]).1.map
        (fun f => f.path) = [pstr "x.py", pstr "x.py"]) := by
  decide

/-- C4: for every completed ingestion, `files_included >= files_read`,
and `files_considered` equals the raw entry count of the archive,
independently of filtering and of where the pass stopped. -/
theorem c4_stats_invariant (sub : Option (List Char)) (entries : List ZipInfo) :
    (ingestEntries sub entries).2.2.files_included ≥
        (ingestEntries sub entries).2.2.files_read ∧
    (ingestEntries sub entries).2.2.files_considered = entries.length := by
  obtain ⟨h1, h2, h3, h4, h5, h6, h7, h8, h9, h10⟩ :=
    foldl_inv sub entries (initState entries.length) (initState_inv entries.length)
  refine ⟨?_, rfl⟩
  show (entries.foldl (processEntry sub) (initState entries.length)).included_count ≥
    (entries.foldl (processEntry sub) (initState entries.length)).stats.files_read
  omega

deriving instance DecidableEq for Except

/-- C5 (counterexample): 304 is neither a 2xx status nor 404 nor a
timeout, yet `ingest_repo` does not fail — the code only rejects
statuses `>= 400`, not every non-2xx status. -/
theorem c5_counterexample :
    (300 ≤ 304 ∨ 304 < 200) ∧ 304 ≠ 404 ∧
    ingest_repo "o" "r" "main" none (.response 304) [] =
      .ok ({ repo := { owner := "o", name := "r", ref := "main", subpath := none },
             files := [], metadata := {} },
           {}) := by
  decide

/-- C5 (amended): `NotFound` exactly on status 404; `DownloadTimeout`
exactly when the GET times out; a generic ingestion error on any other
exception during the GET and on any other status `>= 400` (statuses
below 400 are treated as success after redirect following); and
`ingest_repo` returns an error — hence no payload — precisely when the
fetch dispatch does. -/
theorem c5_amended :
    fetchDispatch .readTimeout = .error .downloadTimeout ∧
    fetchDispatch .transportError = .error .ingestError ∧
    (∀ status : Nat, fetchDispatch (.response status) = .error .notFound ↔ status = 404) ∧
    (∀ status : Nat, status ≠ 404 → 400 ≤ status →
      fetchDispatch (.response status) = .error .ingestError) ∧
    (∀ status : Nat, status < 400 → fetchDispatch (.response status) = .ok ()) ∧
    (∀ (o r rf : String) (sub : Option (List Char)) (outcome : FetchOutcome)
        (entries : List ZipInfo) (e : IngestErr),
      ingest_repo o r rf sub outcome entries = .error e ↔
        fetchDispatch outcome = .error e) := by
  refine ⟨rfl, rfl, ?_, ?_, ?_, ?_⟩
  · intro status
    constructor
    · intro h
      by_cases h4 : status = 404
      · exact h4
      · exfalso
        simp only [fetchDispatch, if_neg h4] at h
        split at h <;> simp_all
    · intro h
      simp [fetchDispatch, h]
  · intro status h4 hge
    simp only [fetchDispatch, if_neg h4, if_pos hge]
  · intro status hlt
    have h4 : status ≠ 404 := by omega
    simp only [fetchDispatch, if_neg h4, if_neg (by omega : ¬ status ≥ 400)]
  · intro o r rf sub outcome entries e
    unfold ingest_repo
    cases h : fetchDispatch outcome with
    | error e2 => simp
    | ok u => simp

/-- C5 witness: the amended dispatch at concrete outcomes. -/
theorem c5_amended_witness :
    fetchDispatch (.response 500) = .error .ingestError ∧
    fetchDispatch (.response 404) = .error .notFound ∧
    fetchDispatch (.response 200) = .ok () ∧
    ingest_repo "o" "r" "main" none .readTimeout [] = .error .downloadTimeout := by
  refine ⟨c5_amended.2.2.2.1 500 (by decide) (by decide),
    (c5_amended.2.2.1 404).mpr rfl,
    c5_amended.2.2.2.2.1 200 (by decide), ?_⟩
  exact (c5_amended.2.2.2.2.2 "o" "r" "main" none .readTimeout [] .downloadTimeout).mpr
    c5_amended.1

/-- C6: for every admitted, readable entry, only the first
`MAX_CHARS_PER_FILE + 1` raw units of the entry are read regardless of
declared size; the pass never stops here; when the decoded text exceeds
the cap the stored content is its cap-length prefix and the
non-terminating per-file reason is recorded, otherwise the full decoded
text is stored and the metadata is untouched. -/
theorem c6_per_file_cap (sub : Option (List Char)) (s : LoopState) (info : ZipInfo)
    (rel : List Char)
    (hstop : s.stopped = false)
    (hdir : isDirEntry info.filename = false)
    (hsub : applySubpath sub (stripTop info.filename) = some rel)
    (hskip : hitsSkipDir rel = false)
    (hex : s.extracted_count + 1 ≤ MAX_FILES_EXTRACT)
    (htot : s.total_uncompressed + info.file_size ≤ MAX_TOTAL_UNCOMPRESSED)
    (hext : ALLOWED_EXT.contains (extOf rel) = true)
    (hsize : info.file_size ≤ MAX_SINGLE_FILE_SIZE)
    (hmem : s.read_count < MAX_FILES_IN_MEMORY)
    (hok : info.readOk = true) :
    (info.data.take (MAX_CHARS_PER_FILE + 1)).length ≤ MAX_CHARS_PER_FILE + 1 ∧
    (processEntry sub s info).stopped = false ∧
    ((decodeText (info.data.take (MAX_CHARS_PER_FILE + 1))).length > MAX_CHARS_PER_FILE →
      (processEntry sub s info).files = s.files ++
        [⟨rel, (decodeText (info.data.take (MAX_CHARS_PER_FILE + 1))).take MAX_CHARS_PER_FILE⟩] ∧
      ((decodeText (info.data.take (MAX_CHARS_PER_FILE + 1))).take MAX_CHARS_PER_FILE).length =
        MAX_CHARS_PER_FILE ∧
      (processEntry sub s info).metadata.truncated = true ∧
      (processEntry sub s info).metadata.reason = some "max_chars_per_file_reached") ∧
    ((decodeText (info.data.take (MAX_CHARS_PER_FILE + 1))).length ≤ MAX_CHARS_PER_FILE →
      (processEntry sub s info).files = s.files ++
        [⟨rel, decodeText (info.data.take (MAX_CHARS_PER_FILE + 1))⟩] ∧
      (processEntry sub s info).metadata = s.metadata) := by
  by_cases hlen :
      (decodeText (info.data.take (MAX_CHARS_PER_FILE + 1))).length ≤ MAX_CHARS_PER_FILE
  · rw [processEntry_read_eq sub s info rel hstop hdir hsub hskip hex htot hext hsize hmem
      hok hlen]
    exact ⟨by rw [List.length_take]; exact Nat.min_le_left _ _, hstop,
      fun hc => absurd hc (by omega), fun _ => ⟨rfl, rfl⟩⟩
  · rw [processEntry_truncread_eq sub s info rel hstop hdir hsub hskip hex htot hext hsize
      hmem hok (by omega)]
    exact ⟨by rw [List.length_take]; exact Nat.min_le_left _ _, hstop,
      fun _ => ⟨rfl, by rw [List.length_take]; omega, rfl, rfl⟩,
      fun hc => absurd hc (by omega)⟩

/-- C6 witness: a concrete admitted two-byte entry. -/
theorem c6_witness :
    (processEntry none (initState 1)
        { filename := pstr "r/a.py", file_size := 2, data := [104, 105], readOk := true }).stopped
      = false :=
  (c6_per_file_cap none (initState 1)
    { filename := pstr "r/a.py", file_size := 2, data := [104, 105], readOk := true }
    (pstr "a.py") rfl (by decide) (by decide) (by decide) (by decide) (by decide) (by decide)
    (by decide) (by decide) rfl).2.1

/-- C7: (i) after a terminating cap has fired, an iteration changes
nothing — no entry examined afterwards can appear in `files`; (ii) a
whole remaining tail changes nothing; (iii) when the final stats carry
one of the three terminating reasons, the payload metadata is truncated
with the same reason; (iv) the number of returned files never exceeds
the in-memory cap, hence none of the three caps\' thresholds. -/
theorem c7_truncation_monotonic :
    (∀ (sub : Option (List Char)) (s : LoopState) (info : ZipInfo),
      s.stopped = true → processEntry sub s info = s) ∧
    (∀ (sub : Option (List Char)) (s : LoopState) (l : List ZipInfo),
      s.stopped = true → l.foldl (processEntry sub) s = s) ∧
    (∀ (sub : Option (List Char)) (entries : List ZipInfo),
      ((ingestEntries sub entries).2.2.reason = some "max_files_extracted_reached" ∨
       (ingestEntries sub entries).2.2.reason = some "max_total_uncompressed_reached" ∨
       (ingestEntries sub entries).2.2.reason = some "max_files_in_memory_reached") →
      (ingestEntries sub entries).2.1.truncated = true ∧
      (ingestEntries sub entries).2.1.reason = (ingestEntries sub entries).2.2.reason) ∧
    (∀ (sub : Option (List Char)) (entries : List ZipInfo),
      (ingestEntries sub entries).1.length ≤ MAX_FILES_IN_MEMORY ∧
      (ingestEntries sub entries).1.length ≤ MAX_FILES_EXTRACT ∧
      (ingestEntries sub entries).1.length ≤ MAX_TOTAL_UNCOMPRESSED) := by
  refine ⟨processEntry_of_stopped, foldl_of_stopped, ?_, ?_⟩
  · intro sub entries hr
    obtain ⟨h1, h2, h3, h4, h5, h6, h7, h8, h9, h10⟩ :=
      foldl_inv sub entries (initState entries.length) (initState_inv entries.length)
    constructor
    · show (entries.foldl (processEntry sub) (initState entries.length)).metadata.truncated = true
      refine h10 ?_
      rw [← h8]
      rcases hr with h | h | h <;>
        exact fun hc => by
          rw [show (ingestEntries sub entries).2.2.reason =
            (entries.foldl (processEntry sub) (initState entries.length)).stats.reason from rfl,
            hc] at h
          cases h
    · show (entries.foldl (processEntry sub) (initState entries.length)).metadata.reason =
        (entries.foldl (processEntry sub) (initState entries.length)).stats.reason
      exact h8.symm
  · intro sub entries
    obtain ⟨h1, h2, h3, h4, h5, h6, h7, h8, h9, h10⟩ :=
      foldl_inv sub entries (initState entries.length) (initState_inv entries.length)
    have e1 : MAX_FILES_IN_MEMORY = 400 := rfl
    have e2 : MAX_FILES_EXTRACT = 2000 := rfl
    have e3 : MAX_TOTAL_UNCOMPRESSED = 26214400 := rfl
    have hlen : (ingestEntries sub entries).1.length =
        (entries.foldl (processEntry sub) (initState entries.length)).files.length := rfl
    refine ⟨?_, ?_, ?_⟩ <;> rw [hlen] <;> omega

/-- C7 witness: a stopped state absorbs further entries, and the
total-uncompressed stop is reflected in the payload metadata. -/
theorem c7_witness :
    processEntry none { initState 0 with stopped := true } c2Entry =
      { initState 0 with stopped := true } ∧
    (ingestEntries none
        [{ filename := pstr "r/a.txt", file_size := 26214401, data := [], readOk := true }]).2.1.truncated
      = true :=
  ⟨c7_truncation_monotonic.1 none { initState 0 with stopped := true } c2Entry rfl,
   (c7_truncation_monotonic.2.2.1 none
      [{ filename := pstr "r/a.txt", file_size := 26214401, data := [], readOk := true }]
      (Or.inr (Or.inl (by decide)))).1⟩

/-- C8: decoding is total: when strict UTF-8 decoding succeeds its
result is kept; when it fails, the latin-1 fallback is used, and that
fallback maps every byte to exactly one code point (it succeeds on every
byte sequence, so decoding never raises). -/
theorem c8_decode_total (raw : List Nat) :
    (∀ t, utf8Decode? raw = some t → decodeText raw = t) ∧
    (utf8Decode? raw = none → decodeText raw = latin1Decode raw) ∧
    (latin1Decode raw).length = raw.length ∧
    (∀ i, (latin1Decode raw).get? i = raw.get? i) := by
  refine ⟨?_, ?_, by simp [latin1Decode], ?_⟩
  · intro t h
    simp [decodeText, h]
  · intro h
    simp [decodeText, h]
  · intro i
    simp [latin1Decode]

/-- C8 witness: the byte 0xFF is not valid UTF-8 and the fallback is
taken. -/
theorem c8_witness :
    utf8Decode? [255] = none ∧ decodeText [255] = latin1Decode [255] :=
  ⟨by decide, (c8_decode_total [255]).2.1 (by decide)⟩

/-- C9: a failing per-entry read is absorbed locally: the entry is
counted as skipped (and keeps its earlier `files_included` count), it is
not appended to `files`, and the pass is not stopped. -/
theorem c9_read_failure_local (sub : Option (List Char)) (s : LoopState) (info : ZipInfo)
    (rel : List Char)
    (hstop : s.stopped = false)
    (hdir : isDirEntry info.filename = false)
    (hsub : applySubpath sub (stripTop info.filename) = some rel)
    (hskip : hitsSkipDir rel = false)
    (hex : s.extracted_count + 1 ≤ MAX_FILES_EXTRACT)
    (htot : s.total_uncompressed + info.file_size ≤ MAX_TOTAL_UNCOMPRESSED)
    (hext : ALLOWED_EXT.contains (extOf rel) = true)
    (hsize : info.file_size ≤ MAX_SINGLE_FILE_SIZE)
    (hmem : s.read_count < MAX_FILES_IN_MEMORY)
    (hok : info.readOk = false) :
    (processEntry sub s info).files = s.files ∧
    (processEntry sub s info).skipped_count = s.skipped_count + 1 ∧
    (processEntry sub s info).stopped = false ∧
    (processEntry sub s info).read_count = s.read_count := by
  rw [processEntry_readfail_eq sub s info rel hstop hdir hsub hskip hex htot hext hsize
    hmem hok]
  exact ⟨rfl, rfl, hstop, rfl⟩

/-- C9 witness: a concrete admitted entry whose read fails. -/
theorem c9_witness :
    (processEntry none (initState 1)
        { filename := pstr "r/a.py", file_size := 1, data := [], readOk := false }).files = [] ∧
    (processEntry none (initState 1)
        { filename := pstr "r/a.py", file_size := 1, data := [], readOk := false }).skipped_count
      = 1 :=
  have h := c9_read_failure_local none (initState 1)
    { filename := pstr "r/a.py", file_size := 1, data := [], readOk := false }
    (pstr "a.py") rfl (by decide) (by decide) (by decide) (by decide) (by decide) (by decide)
    (by decide) (by decide) rfl
  ⟨h.1, h.2.1⟩

/-- C10: the reported `total_uncompressed_bytes` never exceeds the
25 MiB cap, because the running total is copied into the stats only
after the cap check passes; when the cap fires, the stats keep the
pre-entry total, excluding the declared size of the triggering entry. -/
theorem c10_total_bytes_bounded :
    (∀ (sub : Option (List Char)) (entries : List ZipInfo),
      (ingestEntries sub entries).2.2.total_uncompressed_bytes ≤ MAX_TOTAL_UNCOMPRESSED) ∧
    (∀ (sub : Option (List Char)) (s : LoopState) (info : ZipInfo) (rel : List Char),
      s.stopped = false →
      isDirEntry info.filename = false →
      applySubpath sub (stripTop info.filename) = some rel →
      hitsSkipDir rel = false →
      s.extracted_count + 1 ≤ MAX_FILES_EXTRACT →
      s.total_uncompressed + info.file_size > MAX_TOTAL_UNCOMPRESSED →
      (processEntry sub s info).stats.total_uncompressed_bytes =
          s.stats.total_uncompressed_bytes ∧
      (processEntry sub s info).stats.reason = some "max_total_uncompressed_reached") := by
  constructor
  · intro sub entries
    obtain ⟨h1, h2, h3, h4, h5, h6, h7, h8, h9, h10⟩ :=
      foldl_inv sub entries (initState entries.length) (initState_inv entries.length)
    show (entries.foldl (processEntry sub) (initState entries.length)).stats.total_uncompressed_bytes
      ≤ MAX_TOTAL_UNCOMPRESSED
    exact h6
  · intro sub s info rel hstop hdir hsub hskip hex htot
    rw [processEntry_totstop_eq sub s info rel hstop hdir hsub hskip hex htot]
    exact ⟨rfl, rfl⟩

/-- C10 witness: the bound and the exclusion at a concrete over-cap
entry. -/
theorem c10_witness :
    (ingestEntries none
        [{ filename := pstr "r/a.txt", file_size := 26214401, data := [], readOk := true }]).2.2.total_uncompressed_bytes
      ≤ MAX_TOTAL_UNCOMPRESSED ∧
    (processEntry none (initState 1)
        { filename := pstr "r/a.txt", file_size := 26214401, data := [], readOk := true }).stats.total_uncompressed_bytes
      = (initState 1).stats.total_uncompressed_bytes :=
  ⟨c10_total_bytes_bounded.1 none
      [{ filename := pstr "r/a.txt", file_size := 26214401, data := [], readOk := true }],
   (c10_total_bytes_bounded.2 none (initState 1)
      { filename := pstr "r/a.txt", file_size := 26214401, data := [], readOk := true }
      (pstr "a.txt") rfl (by decide) (by decide) (by decide) (by decide) (by decide)).1⟩

end VibeGuard



